import Mathlib

/-!
Shallow embedding of the knowledge pathway engine
(src/ai/knowledge_exchange.py, src/ai/learning_pathway.py, src/ai/validation.py).

Python dicts are modelled as insertion-ordered association lists, JSON-like
Python values as the inductive type `Json`, Python floats/ints as `ℚ`, and
Python exceptions as `Except PyErr`.  A `try/except` block is embedded as an
explicit match on the `Except` value of its body.
-/

namespace PW

/-- Python exception classes that the embedded code can raise. -/
inductive PyErr where
| valueError : PyErr
| typeError : PyErr
| attributeError : PyErr
| keyError : PyErr
| zeroDivisionError : PyErr
| generic : PyErr
deriving DecidableEq, Repr

/-- JSON-serializable Python values (the payloads the engine manipulates).
Numbers (Python int and float) are modelled as `ℚ`. -/
inductive Json where
| null : Json
| bool (b : Bool) : Json
| num (q : ℚ) : Json
| str (s : String) : Json
| arr (elems : List Json) : Json
| obj (fields : List (String × Json)) : Json
deriving Repr

mutual

/-- Structural equality of values (Python `==` on JSON-like data). -/
def jsonBeq : Json → Json → Bool
| .null, .null => true
| .bool a, .bool b => a == b
| .num a, .num b => a == b
| .str a, .str b => a == b
| .arr xs, .arr ys => jsonBeqList xs ys
| .obj fs, .obj gs => jsonBeqFields fs gs
| _, _ => false

def jsonBeqList : List Json → List Json → Bool
| [], [] => true
| x :: xs, y :: ys => jsonBeq x y && jsonBeqList xs ys
| _, _ => false

def jsonBeqFields : List (String × Json) → List (String × Json) → Bool
| [], [] => true
| (k1, v1) :: fs, (k2, v2) :: gs => k1 == k2 && jsonBeq v1 v2 && jsonBeqFields fs gs
| _, _ => false

end

mutual

theorem jsonBeq_iff : ∀ a b, jsonBeq a b = true ↔ a = b
| .null, b => by cases b <;> simp [jsonBeq]
| .bool a, b => by cases b <;> simp [jsonBeq]
| .num a, b => by cases b <;> simp [jsonBeq]
| .str a, b => by cases b <;> simp [jsonBeq]
| .arr xs, .null => by simp [jsonBeq]
| .arr xs, .bool b => by simp [jsonBeq]
| .arr xs, .num q => by simp [jsonBeq]
| .arr xs, .str s => by simp [jsonBeq]
| .arr xs, .arr ys => by simp [jsonBeq, jsonBeqList_iff xs ys]
| .arr xs, .obj gs => by simp [jsonBeq]
| .obj fs, .null => by simp [jsonBeq]
| .obj fs, .bool b => by simp [jsonBeq]
| .obj fs, .num q => by simp [jsonBeq]
| .obj fs, .str s => by simp [jsonBeq]
| .obj fs, .arr ys => by simp [jsonBeq]
| .obj fs, .obj gs => by simp [jsonBeq, jsonBeqFields_iff fs gs]

theorem jsonBeqList_iff : ∀ xs ys, jsonBeqList xs ys = true ↔ xs = ys
| [], [] => by simp [jsonBeqList]
| [], y :: ys => by simp [jsonBeqList]
| x :: xs, [] => by simp [jsonBeqList]
| x :: xs, y :: ys => by
    simp [jsonBeqList, jsonBeq_iff x y, jsonBeqList_iff xs ys]

theorem jsonBeqFields_iff : ∀ fs gs, jsonBeqFields fs gs = true ↔ fs = gs
| [], [] => by simp [jsonBeqFields]
| [], g :: gs => by simp [jsonBeqFields]
| f :: fs, [] => by simp [jsonBeqFields]
| (k1, v1) :: fs, (k2, v2) :: gs => by
    simp [jsonBeqFields, jsonBeq_iff v1 v2, jsonBeqFields_iff fs gs, and_assoc]

end

instance : DecidableEq Json := fun a b => decidable_of_iff _ (jsonBeq_iff a b)

/-- A Python dict with string keys, in insertion order (keys are unique in any
state produced by the code, since Python dicts cannot hold duplicate keys). -/
abbrev Item := List (String × Json)

/-- Dict lookup (`d[k]` / `d.get(k)`), first matching key. -/
def alistLookup {κ α : Type} [DecidableEq κ] : List (κ × α) → κ → Option α
| [], _ => none
| (k2, v) :: rest, k => if k2 = k then some v else alistLookup rest k

/-- Dict assignment `d[k] = v`: updates the entry in place if the key exists
(keeping its position, as CPython dicts do), else appends it at the end. -/
def alistSet {κ α : Type} [DecidableEq κ] : List (κ × α) → κ → α → List (κ × α)
| [], k, v => [(k, v)]
| (k2, v2) :: rest, k, v =>
    if k2 = k then (k2, v) :: rest else (k2, v2) :: alistSet rest k v

/-- `d[k].append(x)` for a dict whose values are lists; no-op if `k` is absent
(the source only calls it after checking membership). -/
def alistAppend {κ α : Type} [DecidableEq κ] : List (κ × List α) → κ → α → List (κ × List α)
| [], _, _ => []
| (k2, xs) :: rest, k, v =>
    if k2 = k then (k2, xs ++ [v]) :: rest else (k2, xs) :: alistAppend rest k v

/-- `knowledge_data.get(key, default)`. -/
def itemGet (d : Item) (k : String) (default : Json) : Json :=
  (alistLookup d k).getD default

/-- Rendering of a number by `json.dumps` (model: integers without a decimal
point, other rationals via their `ℚ` representation). -/
def renderNum (q : ℚ) : String :=
  if q.den = 1 then toString q.num else toString q

mutual

/-- `json.dumps(v)` with Python's default separators (", " and ": ") and keys
in dict insertion order.  String escaping is not modelled (no payload in this
development needs it). -/
def dumps : Json → String
| .null => "null"
| .bool true => "true"
| .bool false => "false"
| .num q => renderNum q
| .str s => "\"" ++ s ++ "\""
| .arr xs => "[" ++ dumpsElems xs ++ "]"
| .obj fs => "\x7b" ++ dumpsFields fs ++ "\x7d"

def dumpsElems : List Json → String
| [] => ""
| [x] => dumps x
| x :: y :: rest => dumps x ++ ", " ++ dumpsElems (y :: rest)

def dumpsFields : List (String × Json) → String
| [] => ""
| [(k, v)] => "\"" ++ k ++ "\": " ++ dumps v
| (k, v) :: e :: rest => "\"" ++ k ++ "\": " ++ dumps v ++ ", " ++ dumpsFields (e :: rest)

end

/-- Sorting a dict's entries by key, as `json.dumps(..., sort_keys=True)` does.
Since dict keys are unique, sorting the items by key equals listing the sorted
keys with their looked-up values. -/
def sortEntries (fields : List (String × Json)) : List (String × Json) :=
  (List.insertionSort (fun a b => a ≤ b) (fields.map Prod.fst)).map
    (fun k => (k, (alistLookup fields k).getD Json.null))

mutual

/-- Recursively sort all object keys (the effect of `sort_keys=True`). -/
def sortKeysJson : Json → Json
| .null => .null
| .bool b => .bool b
| .num q => .num q
| .str s => .str s
| .arr xs => .arr (sortKeysList xs)
| .obj fs => .obj (sortEntries (sortKeysFields fs))

def sortKeysList : List Json → List Json
| [] => []
| x :: rest => sortKeysJson x :: sortKeysList rest

def sortKeysFields : List (String × Json) → List (String × Json)
| [] => []
| (k, v) :: rest => (k, sortKeysJson v) :: sortKeysFields rest

end

/-- `json.dumps(v, sort_keys=True)`. -/
def dumpsSorted (j : Json) : String := dumps (sortKeysJson j)

/-- `KnowledgeExchange._generate_knowledge_id`: sha256 hexdigest of the
canonical (key-sorted) serialization.  The hash itself is an external library
function and is passed in as a parameter. -/
def generateKnowledgeId (sha256hex : String → String) (knowledgeData : Item) : String :=
  sha256hex (dumpsSorted (Json.obj knowledgeData))

/-- `KnowledgeExchange._create_signature`: sha256 digest bytes of the same
canonical serialization (modelled as a string via the `sha256raw` parameter). -/
def createSignature (sha256raw : String → String) (knowledgeData : Item) : String :=
  sha256raw (dumpsSorted (Json.obj knowledgeData))

mutual

/-- Well-formedness of a value as a Python object: every object's keys are
distinct at every level, as Python dicts guarantee. -/
def jsonWF : Json → Bool
| .null => true
| .bool _ => true
| .num _ => true
| .str _ => true
| .arr xs => jsonWFList xs
| .obj fs => decide (fs.map Prod.fst).Nodup && jsonWFFields fs

def jsonWFList : List Json → Bool
| [] => true
| x :: rest => jsonWF x && jsonWFList rest

def jsonWFFields : List (String × Json) → Bool
| [] => true
| kv :: rest => jsonWF kv.2 && jsonWFFields rest

end

mutual

/-- The same structured content up to reordering of object fields in its
representation, at every nesting level: scalars and array element order must
agree, while an object's fields may be listed in any order (each key of the
first record must map to an equivalent value in the second, and the records
must have the same number of fields — for unique-keyed records this says
the two dicts are equal up to field order). -/
def jsonEquiv : Json → Json → Bool
| .null, .null => true
| .bool a, .bool b => a == b
| .num a, .num b => a == b
| .str a, .str b => a == b
| .arr xs, .arr ys => jsonEquivList xs ys
| .obj fs, .obj gs => fs.length == gs.length && jsonEquivFields fs gs
| _, _ => false

def jsonEquivList : List Json → List Json → Bool
| [], [] => true
| x :: xs, y :: ys => jsonEquiv x y && jsonEquivList xs ys
| _, _ => false

def jsonEquivFields : List (String × Json) → List (String × Json) → Bool
| [], _ => true
| kv :: rest, gs =>
  (match alistLookup gs kv.1 with
   | some w => jsonEquiv kv.2 w
   | none => false) && jsonEquivFields rest gs

end

/-! ## LearningPathway (src/ai/learning_pathway.py) -/

/-- Helper for `pySplit`: scan the characters, accumulating the current
(reversed) token. -/
def pySplitAux : List Char → List Char → List String
| [], acc => if acc.isEmpty then [] else [String.mk acc.reverse]
| c :: rest, acc =>
  if c.isWhitespace then
    if acc.isEmpty then pySplitAux rest [] else String.mk acc.reverse :: pySplitAux rest []
  else pySplitAux rest (c :: acc)

/-- Python `str.split()` with no argument: split on whitespace runs and drop
empty pieces. -/
def pySplit (s : String) : List String :=
  pySplitAux s.toList []

/-- The token set of a serialized content payload. -/
def pyTokens (s : String) : Finset String := (pySplit s).toFinset

/-- `intersection / union if union > 0 else 0` on token sets. -/
def jaccard (set1 set2 : Finset String) : ℚ :=
  if 0 < (set1 ∪ set2).card then ((set1 ∩ set2).card : ℚ) / ((set1 ∪ set2).card : ℚ) else 0

/-- `LearningPathway._calculate_similarity`: Jaccard similarity of the token
sets of `json.dumps(data.get('content', ''))`. -/
def calculateSimilarity (data1 data2 : Item) : ℚ :=
  jaccard (pyTokens (dumps (itemGet data1 "content" (Json.str ""))))
    (pyTokens (dumps (itemGet data2 "content" (Json.str ""))))

/-- The state of one `LearningPathway` instance. -/
structure Pathway where
  domain : Json
  knowledge_graph : List (String × Item)
  connections : List (String × List String)
  performance_metrics : List (String × ℚ)
  contributor_scores : List (Json × ℚ)
deriving Repr

def emptyPathway (domain : Json) : Pathway :=
  { domain := domain, knowledge_graph := [], connections := [],
    performance_metrics := [], contributor_scores := [] }

/-- `LearningPathway._find_related_knowledge`: ids of graph items whose
similarity with the new data exceeds 0.7, in dict iteration (insertion)
order.  Note that at its call site the new item is already in the graph. -/
def findRelatedKnowledge (graph : List (String × Item)) (data : Item) : List String :=
  (graph.filter (fun e => 7/10 < calculateSimilarity data e.2)).map Prod.fst

/-- Python truthiness (`if contributor:`, `if not signature:`). -/
def truthy : Json → Bool
| .null => false
| .bool b => b
| .num q => q ≠ 0
| .str s => s ≠ ""
| .arr xs => xs ≠ []
| .obj fs => fs ≠ []

/-- Model of `datetime.fromisoformat` applied to a value, returning a day
number.  Modelled from the stdlib: requires a string shaped
`YYYY-MM-DD[T...]` with digits in the date positions (`ValueError`
otherwise, `TypeError` for non-strings); the returned day count uses a
simplified calendar. -/
def pyFromIsoformat (j : Json) : Except PyErr ℚ :=
  match j with
  | .str s =>
    match s.toList with
    | y1 :: y2 :: y3 :: y4 :: sep1 :: m1 :: m2 :: sep2 :: d1 :: d2 :: rest =>
      if ([y1, y2, y3, y4, m1, m2, d1, d2].all Char.isDigit) ∧ sep1 = Char.ofNat 45 ∧
          sep2 = Char.ofNat 45 ∧ (rest = [] ∨ rest.head? = some (Char.ofNat 84)) then
        .ok ((((y1.toNat - 48) * 1000 + (y2.toNat - 48) * 100 + (y3.toNat - 48) * 10 +
               (y4.toNat - 48)) * 372 + ((m1.toNat - 48) * 10 + m2.toNat - 48) * 31 +
              ((d1.toNat - 48) * 10 + d2.toNat - 48) : ℕ) : ℚ)
      else .error .valueError
    | _ => .error .valueError
  | _ => .error .typeError

/-- `LearningPathway._calculate_performance_metrics`: initial score
`0.4 * (1 / (1 + age_days)) + 0.6 * log1p(usage_count)`.  `np.log1p` is a
float library function, passed in as the parameter `log1p`.  The method
swallows its own exceptions (logging them), leaving the metrics unchanged. -/
def calculatePerformanceMetrics (log1p : ℚ → ℚ) (now : ℚ) (p : Pathway)
    (knowledgeId : String) : Pathway :=
  match alistLookup p.knowledge_graph knowledgeId with
  | none => p
  | some data =>
    match pyFromIsoformat (itemGet data "timestamp" (Json.str "")) with
    | .error _ => p
    | .ok ts =>
      let ageDays : ℤ := ⌊now - ts⌋
      if (1 : ℚ) + (ageDays : ℚ) = 0 then p
      else
        let ageFactor := 1 / (1 + (ageDays : ℚ))
        let usageCount := match itemGet data "usage_count" (Json.num 0) with
          | .num q => q
          | _ => 0
        let usageFactor := log1p usageCount
        { p with performance_metrics :=
            alistSet p.performance_metrics knowledgeId (4/10 * ageFactor + 6/10 * usageFactor) }

/-- The loop
`for related_id in related_ids: if related_id in self.connections:
self.connections[related_id].append(knowledge_id)`
from `LearningPathway.add_knowledge`.  The iterated list `related_ids` is the
very object stored at `self.connections[knowledge_id]` on the previous line,
so the embedding re-reads that entry at every step, exactly as the CPython
list iterator observes appends made during iteration.  `fuel` bounds the
number of iterations; `none` means the loop has not finished within `fuel`
steps. -/
def backEdgeLoop (knowledgeId : String) :
    Nat → List (String × List String) → Nat → Option (List (String × List String))
| 0, _, _ => none
| fuel + 1, conns, i =>
  if i < ((alistLookup conns knowledgeId).getD []).length then
    backEdgeLoop knowledgeId fuel
      (if (alistLookup conns (((alistLookup conns knowledgeId).getD []).getD i "")).isSome
       then alistAppend conns (((alistLookup conns knowledgeId).getD []).getD i "") knowledgeId
       else conns)
      (i + 1)
  else some conns

/-- `LearningPathway.add_knowledge`.  Returns `none` when the back-edge loop
does not terminate within `fuel` iterations. -/
def addKnowledge (log1p : ℚ → ℚ) (now : ℚ) (fuel : Nat) (knowledgeId : String)
    (knowledgeData : Item) (p : Pathway) : Option Pathway :=
  let graph2 := alistSet p.knowledge_graph knowledgeId knowledgeData
  let relatedIds := findRelatedKnowledge graph2 knowledgeData
  let conns1 := alistSet p.connections knowledgeId relatedIds
  match backEdgeLoop knowledgeId fuel conns1 0 with
  | none => none
  | some conns2 =>
    let contributor := itemGet knowledgeData "contributor" Json.null
    let scores2 :=
      if truthy contributor then
        let current := (alistLookup p.contributor_scores contributor).getD 0
        alistSet p.contributor_scores contributor (current + 1)
      else p.contributor_scores
    some (calculatePerformanceMetrics log1p now
      { p with knowledge_graph := graph2, connections := conns2,
               contributor_scores := scores2 } knowledgeId)

/-- `LearningPathway._matches_query`: every filter key must be present with
an equal value. -/
def matchesQuery (knowledgeData : Item) (queryParams : Item) : Bool :=
  queryParams.all (fun kv => alistLookup knowledgeData kv.1 = some kv.2)

/-- The sort key `x['performance_score']` used by `query_knowledge`; every
element it is applied to carries a numeric performance_score set two lines
above. -/
def getPerfScore (it : Item) : ℚ :=
  match alistLookup it "performance_score" with
  | some (.num q) => q
  | _ => 0

/-- `LearningPathway.query_knowledge`: matching items annotated with their
performance score, sorted descending by that score.  Python's `list.sort` is
stable, which `List.insertionSort` with a non-strict relation reproduces. -/
def pathwayQueryKnowledge (p : Pathway) (queryParams : Item) : List Item :=
  let matched := (p.knowledge_graph.filter (fun e => matchesQuery e.2 queryParams)).map
    (fun e => alistSet e.2 "performance_score"
      (Json.num ((alistLookup p.performance_metrics e.1).getD 0)))
  List.insertionSort (fun a b => getPerfScore b ≤ getPerfScore a) matched

/-- `LearningPathway.get_top_contributors`: contributor scores sorted
descending by score with Python's stable sort, truncated to 10. -/
def getTopContributors (scores : List (Json × ℚ)) : List (Json × ℚ) :=
  (List.insertionSort (fun a b => b.2 ≤ a.2) scores).take 10

instance : IsTotal (Json × ℚ) (fun a b => b.2 ≤ a.2) :=
  ⟨fun a b => le_total b.2 a.2⟩

instance : IsTrans (Json × ℚ) (fun a b => b.2 ≤ a.2) :=
  ⟨fun _ _ _ h1 h2 => le_trans h2 h1⟩

/-- `LearningPathway._prune_connections`.  `np.mean` of an empty list is
`nan`, and every `>=` comparison against `nan` is false, so with an empty
performance map every edge is dropped; otherwise the threshold is the mean
and an edge to `conn_id` is kept iff
`performance_metrics.get(conn_id, 0) >= threshold`. -/
def pruneConnections (p : Pathway) : Pathway :=
  let vals := p.performance_metrics.map Prod.snd
  if vals.isEmpty then
    { p with connections := p.connections.map (fun e => (e.1, [])) }
  else
    let threshold := vals.sum / (vals.length : ℚ)
    { p with connections := p.connections.map (fun e =>
        (e.1, e.2.filter (fun connId =>
          threshold ≤ (alistLookup p.performance_metrics connId).getD 0))) }

/-! ## KnowledgeValidator (src/ai/validation.py) -/

/-- The validation cache: cache key → (write time, cached boolean). -/
abbrev Cache := List (String × (ℚ × Bool))

/-- `KnowledgeValidator._generate_cache_key`: `str(hash(json.dumps(data,
sort_keys=True)))`.  Python's opaque string hash is the parameter `pyHash`;
dumping cannot fail on `Json` values, so the fallback branch is dead. -/
def generateCacheKey (pyHash : String → ℤ) (knowledgeData : Item) : String :=
  toString (pyHash (dumpsSorted (Json.obj knowledgeData)))

/-- `v.get(k, default)` on an arbitrary value: raises `AttributeError`
unless `v` is a dict. -/
def pyGet (v : Json) (k : String) (default : Json) : Except PyErr Json :=
  match v with
  | .obj fs => .ok ((alistLookup fs k).getD default)
  | _ => .error .attributeError

/-- Does `needle` occur as a contiguous sublist? -/
def listHasSub (needle : List Char) : List Char → Bool
| [] => needle.isEmpty
| c :: rest => needle.isPrefixOf (c :: rest) || listHasSub needle rest

/-- Substring test, modelling Python `needle in haystack` for strings. -/
def strContainsSub (hay needle : String) : Bool :=
  listHasSub needle.toList hay.toList

/-- Python `s.split('.')` for a one-character separator, in character-list
form. -/
def splitOnChar (sep : Char) : List Char → List (List Char)
| [] => [[]]
| c :: rest =>
  match splitOnChar sep rest with
  | [] => [[]]
  | cur :: parts => if c = sep then [] :: cur :: parts else (c :: cur) :: parts

/-- A version part is well-formed when it is a non-empty run of digits
(Python `str.isdigit`). -/
def isDigits (part : List Char) : Bool :=
  ¬ part.isEmpty && part.all Char.isDigit

/-- `version.split('.')` has exactly three parts, each all digits. -/
def isSemverString (version : String) : Bool :=
  let versionParts := splitOnChar (Char.ofNat 46) version.toList
  versionParts.length = 3 && versionParts.all isDigits

/-- Python `needle in v`: key membership for dicts, element membership for
lists, substring for strings, `TypeError` otherwise. -/
def pyContains (needle : String) (v : Json) : Except PyErr Bool :=
  match v with
  | .obj fs => .ok (alistLookup fs needle).isSome
  | .arr xs => .ok (xs.contains (Json.str needle))
  | .str s => .ok (strContainsSub s needle)
  | _ => .error .typeError

/-- Python iteration `for x in v`: elements of a list, keys of a dict,
characters of a string, `TypeError` otherwise. -/
def pyIter (v : Json) : Except PyErr (List Json) :=
  match v with
  | .arr xs => .ok xs
  | .obj fs => .ok (fs.map (fun kv => Json.str kv.1))
  | .str s => .ok (s.toList.map (fun c => Json.str (String.singleton c)))
  | _ => .error .typeError

def requiredFields : List String :=
  ["content", "domain", "contributor", "timestamp", "version", "metadata", "dependencies"]

/-- Body of `KnowledgeValidator._validate_structure`; the timestamp parse is
wrapped in its own `except ValueError` (a `TypeError` from a non-string
timestamp escapes it and is caught by the method's outer handler). -/
def validateStructureCore (d : Item) : Except PyErr Bool :=
  if ¬ requiredFields.all (fun f => (alistLookup d f).isSome) then .ok false
  else match itemGet d "content" Json.null with
    | .obj contentFields =>
      if (alistLookup contentFields "type").isNone then .ok false
      else match itemGet d "metadata" Json.null with
        | .obj _ =>
          (match pyFromIsoformat (itemGet d "timestamp" (Json.str "")) with
           | .ok _ => .ok true
           | .error .valueError => .ok false
           | .error e => .error e)
        | _ => .ok false
    | _ => .ok false

/-- `_validate_structure` with its outer `except Exception: return False`. -/
def validateStructure (d : Item) : Bool :=
  match validateStructureCore d with
  | .ok b => b
  | .error _ => false

/-- Numeric in the sense of `isinstance(v, (int, float))`; Python's `bool`
is a subclass of `int`, so booleans count. -/
def isNumeric : Json → Bool
| .num _ => true
| .bool _ => true
| _ => false

def validateModelWeightsCore (content : Json) : Except PyErr ℚ := do
  let weights ← pyGet content "weights" (Json.obj [])
  match weights with
  | .obj fs => if fs.all (fun kv => isNumeric kv.2) then pure 1 else pure 0
  | _ => pure 0

/-- `_validate_model_weights` with its `except Exception: return 0.0`. -/
def validateModelWeights (content : Json) : ℚ :=
  match validateModelWeightsCore content with
  | .ok q => q
  | .error _ => 0

def validateDataEntryCore (entry : Json) : Except PyErr Bool := do
  let a ← pyContains "input" entry
  if ¬ a then pure false else do
    let b ← pyContains "output" entry
    if ¬ b then pure false else pyContains "metadata" entry

/-- `_validate_data_entry` with its `except Exception: return False`. -/
def validateDataEntry (entry : Json) : Bool :=
  match validateDataEntryCore entry with
  | .ok b => b
  | .error _ => false

def validateTrainingDataCore (content : Json) : Except PyErr ℚ := do
  let data ← pyGet content "data" (Json.arr [])
  match data with
  | .arr xs =>
    if xs.isEmpty then pure 0
    else pure (((xs.filter validateDataEntry).length : ℚ) / (xs.length : ℚ))
  | _ => pure 0

/-- `_validate_training_data` with its `except Exception: return 0.0`. -/
def validateTrainingData (content : Json) : ℚ :=
  match validateTrainingDataCore content with
  | .ok q => q
  | .error _ => 0

def validateAlgorithmCore (content : Json) : Except PyErr ℚ := do
  let algorithm ← pyGet content "algorithm" (Json.obj [])
  let a ← pyContains "name" algorithm
  if ¬ a then pure 0 else do
    let b ← pyContains "parameters" algorithm
    if ¬ b then pure 0 else do
      let c ← pyContains "complexity" algorithm
      if ¬ c then pure 0 else pure 1

/-- `_validate_algorithm` with its `except Exception: return 0.0`. -/
def validateAlgorithm (content : Json) : ℚ :=
  match validateAlgorithmCore content with
  | .ok q => q
  | .error _ => 0

/-- `_validate_content_size`: `1.0 - len(json.dumps(content)) / (1024*1024)`,
0.0 once the size exceeds the cap. -/
def validateContentSize (content : Json) : ℚ :=
  let contentSize := (dumps content).length
  let maxSize := 1024 * 1024
  if maxSize < contentSize then 0
  else 1 - (contentSize : ℚ) / (maxSize : ℚ)

def validateContentCore (d : Item) : Except PyErr ℚ := do
  let content := itemGet d "content" (Json.obj [])
  let contentType ← pyGet content "type" Json.null
  let typeScore :=
    if contentType = Json.str "model_weights" then validateModelWeights content
    else if contentType = Json.str "training_data" then validateTrainingData content
    else if contentType = Json.str "algorithm" then validateAlgorithm content
    else 0
  let sizeScore := validateContentSize content
  pure ((typeScore + sizeScore) / 2)

/-- `_validate_content` with its `except Exception: return 0.0`. -/
def validateContent (d : Item) : ℚ :=
  match validateContentCore d with
  | .ok q => q
  | .error _ => 0

/-- `_validate_dependency_version` (with its own exception handler): version
must be three dot-separated groups of digits. -/
def validateDependencyVersion (dependency : List (String × Json)) : Bool :=
  match itemGet dependency "version" (Json.str "") with
  | .str version => isSemverString version
  | _ => false

def validateDependencyList : List Json → Bool
| [] => true
| dep :: rest =>
  match dep with
  | .obj depFields =>
    if (alistLookup depFields "id").isNone ∨ (alistLookup depFields "version").isNone then false
    else if ¬ validateDependencyVersion depFields then false
    else validateDependencyList rest
  | _ => false

def validateDependenciesCore (d : Item) : Except PyErr Bool := do
  let dependencies := itemGet d "dependencies" (Json.arr [])
  let deps ← pyIter dependencies
  pure (validateDependencyList deps)

/-- `_validate_dependencies` with its `except Exception: return False`. -/
def validateDependencies (d : Item) : Bool :=
  match validateDependenciesCore d with
  | .ok b => b
  | .error _ => false

/-- `_validate_version` (with its own exception handler). -/
def validateVersion (d : Item) : Bool :=
  match itemGet d "version" (Json.str "") with
  | .str version => isSemverString version
  | _ => false

/-- The four sequential stages of `validate_knowledge` after the cache
check, writing a (current time, `True`) cache entry on success. -/
def validateKnowledgeStages (threshold : ℚ) (now : ℚ) (cache : Cache) (cacheKey : String)
    (d : Item) : Except PyErr (Bool × Cache) :=
  if ¬ validateStructure d then .ok (false, cache)
  else if validateContent d < threshold then .ok (false, cache)
  else if ¬ validateDependencies d then .ok (false, cache)
  else if ¬ validateVersion d then .ok (false, cache)
  else .ok (true, alistSet cache cacheKey (now, true))

/-- Body of `KnowledgeValidator.validate_knowledge`: a cache entry (any
tuple is truthy) younger than 3600 seconds short-circuits; otherwise the
stages run. -/
def validateKnowledgeCore (threshold : ℚ) (pyHash : String → ℤ) (now : ℚ) (cache : Cache)
    (d : Item) : Except PyErr (Bool × Cache) :=
  let cacheKey := generateCacheKey pyHash d
  match alistLookup cache cacheKey with
  | some (timestamp, result) =>
    if now - timestamp < 3600 then .ok (result, cache)
    else validateKnowledgeStages threshold now cache cacheKey d
  | none => validateKnowledgeStages threshold now cache cacheKey d

/-- `validate_knowledge` with its outer `except Exception: return False`. -/
def validateKnowledge (threshold : ℚ) (pyHash : String → ℤ) (now : ℚ) (cache : Cache)
    (d : Item) : Bool × Cache :=
  match validateKnowledgeCore threshold pyHash now cache d with
  | .ok r => r
  | .error _ => (false, cache)

/-! ## KnowledgeExchange (src/ai/knowledge_exchange.py) -/

/-- The mutable state of a `KnowledgeExchange`: the per-domain pathway
registry (keyed by whatever `knowledge_data.get('domain')` returned) and the
validator's cache. -/
structure ExchangeState where
  pathways : List (Json × Pathway)
  cache : Cache
deriving Repr

def initialExchangeState : ExchangeState := { pathways := [], cache := [] }

/-- `KnowledgeExchange.submit_knowledge`.  The external ledger call
`solana_client.submit_knowledge_transaction` is the parameter `ledger`; a
raised exception is logged and re-raised (`Except.error`), and `none` means
the call never returns because `add_knowledge` did not terminate within
`fuel` iterations of its back-edge loop.  The pathway registry entry is
created before `add_knowledge` runs, as in the source. -/
def submitKnowledge (ledger : Item → String → Except PyErr String)
    (sha256hex sha256raw : String → String) (pyHash : String → ℤ)
    (threshold now : ℚ) (log1p : ℚ → ℚ) (fuel : Nat) (d : Item) (st : ExchangeState) :
    Option (Except PyErr String × ExchangeState) :=
  let v := validateKnowledge threshold pyHash now st.cache d
  if ¬ v.1 then some (.error .valueError, ⟨st.pathways, v.2⟩)
  else
    let knowledgeId := generateKnowledgeId sha256hex d
    let signature := createSignature sha256raw d
    match ledger d signature with
    | .error e => some (.error e, ⟨st.pathways, v.2⟩)
    | .ok transactionId =>
      let domain := itemGet d "domain" Json.null
      let pathway := (alistLookup st.pathways domain).getD (emptyPathway domain)
      match addKnowledge log1p now fuel knowledgeId d pathway with
      | none => none
      | some p2 => some (.ok transactionId, ⟨alistSet st.pathways domain p2, v.2⟩)

/-- `KnowledgeExchange._verify_knowledge`: items without a truthy
`signature` are rejected outright; ledger verification errors are swallowed
as `False`. -/
def verifyKnowledge (verify : Json → Except PyErr Bool) (knowledgeData : Item) : Bool :=
  match alistLookup knowledgeData "signature" with
  | none => false
  | some signature =>
    if ¬ truthy signature then false
    else match verify signature with
      | .ok b => b
      | .error _ => false

/-- `KnowledgeExchange.query_knowledge`: empty for an unknown domain,
otherwise the pathway's ranked results filtered to those whose signature
verifies on the ledger. -/
def exchangeQueryKnowledge (verify : Json → Except PyErr Bool) (domain : Json)
    (queryParams : Item) (st : ExchangeState) : Except PyErr (List Item) :=
  match alistLookup st.pathways domain with
  | none => .ok []
  | some pathway =>
    .ok ((pathwayQueryKnowledge pathway queryParams).filter (verifyKnowledge verify))

/-! ## Concrete items used by the theorems -/

/-- A small, fully valid `algorithm`-type submission. -/
def mkValidItem (contributorName : String) (algoName : String) : Item :=
  [("content", Json.obj [("type", Json.str "algorithm"),
      ("algorithm", Json.obj [("name", Json.str algoName), ("parameters", Json.obj []),
        ("complexity", Json.str "o")])]),
   ("domain", Json.str "ml"), ("contributor", Json.str contributorName),
   ("timestamp", Json.str "2024-01-01"), ("version", Json.str "1.0.0"),
   ("metadata", Json.obj []), ("dependencies", Json.arr [])]

def c1Item : Item := mkValidItem "alice" "a1"
def c7Item : Item := mkValidItem "bob" "b1"
def c10Item : Item := mkValidItem "carol" "c1"

/-- First item of the C3 scenario: ten whitespace-separated content tokens. -/
def c3ItemA : Item :=
  [("content", Json.str "alpha beta gamma delta epsilon zeta eta theta iota kappa"),
   ("domain", Json.str "ml"), ("contributor", Json.str "dave")]

/-- Second item of the C3 scenario: nine of the ten tokens shared, Jaccard
similarity 9/11 > 0.7 with the first. -/
def c3ItemB : Item :=
  [("content", Json.str "alpha beta gamma delta epsilon zeta eta theta iota lambda"),
   ("domain", Json.str "ml"), ("contributor", Json.str "erin")]

/-- A structurally valid item whose content type is unknown. -/
def c6Item : Item :=
  [("content", Json.obj [("type", Json.str "unknown_type"), ("payload", Json.str "p")]),
   ("domain", Json.str "ml"), ("contributor", Json.str "frank"),
   ("timestamp", Json.str "2024-01-01"), ("version", Json.str "1.0.0"),
   ("metadata", Json.obj []), ("dependencies", Json.arr [])]

/-- A structurally complete item except that its timestamp is a number, so
`datetime.fromisoformat` raises `TypeError` (not caught by the inner
`except ValueError`). -/
def c8ItemA : Item :=
  [("content", Json.obj [("type", Json.str "x")]), ("domain", Json.str "ml"),
   ("contributor", Json.str "gia"), ("timestamp", Json.num 5),
   ("version", Json.str "1.0.0"), ("metadata", Json.obj []),
   ("dependencies", Json.arr [])]

/-- An item whose content and dependencies are numbers, so attribute access
and iteration raise inside those stages. -/
def c8ItemB : Item :=
  [("content", Json.num 1), ("dependencies", Json.num 2)]

/-- A pathway state used to exercise pruning: two scored items, one scoring
edge set. -/
def c5Pathway : Pathway :=
  { domain := Json.str "ml",
    knowledge_graph := [("a", []), ("b", [])],
    connections := [("a", ["a", "b"]), ("b", ["a", "missing"])],
    performance_metrics := [("a", 1), ("b", 0)],
    contributor_scores := [] }

/-- A pathway holding one stored, signature-free item. -/
def c1Pathway : Pathway :=
  { domain := Json.str "ml",
    knowledge_graph := [("k", c1Item)],
    connections := [("k", ["k"])],
    performance_metrics := [("k", 1)],
    contributor_scores := [(Json.str "alice", 1)] }

/-- An exchange state holding `c1Pathway` under the domain `"ml"`. -/
def c1QueryState : ExchangeState :=
  { pathways := [(Json.str "ml", c1Pathway)], cache := [] }

/-! ## Association-list lemmas -/

theorem alistLookup_set_self {κ α : Type} [DecidableEq κ] (l : List (κ × α)) (k : κ) (v : α) :
    alistLookup (alistSet l k v) k = some v := by
  induction l with
  | nil => simp [alistSet, alistLookup]
  | cons kv rest ih =>
    by_cases h : kv.1 = k
    · simp [alistSet, alistLookup, h]
    · simpa [alistSet, alistLookup, h] using ih

theorem alistLookup_set_ne {κ α : Type} [DecidableEq κ] (l : List (κ × α)) (k k2 : κ) (v : α)
    (h : k ≠ k2) : alistLookup (alistSet l k v) k2 = alistLookup l k2 := by
  induction l with
  | nil => simp [alistSet, alistLookup, h]
  | cons kv rest ih =>
    by_cases hk : kv.1 = k
    · simp [alistSet, alistLookup, hk, h]
    · simp [alistSet, alistLookup, hk, ih]

theorem alistLookup_append_self {κ α : Type} [DecidableEq κ] (l : List (κ × List α)) (k : κ)
    (v : α) (xs : List α) (h : alistLookup l k = some xs) :
    alistLookup (alistAppend l k v) k = some (xs ++ [v]) := by
  induction l with
  | nil => simp [alistLookup] at h
  | cons kv rest ih =>
    by_cases hk : kv.1 = k
    · simp [alistLookup, hk] at h
      simp [alistAppend, alistLookup, hk, h]
    · simp [alistLookup, hk] at h
      simp [alistAppend, alistLookup, hk, ih h]

theorem alistLookup_append_ne {κ α : Type} [DecidableEq κ] (l : List (κ × List α)) (k k2 : κ)
    (v : α) (h : k ≠ k2) : alistLookup (alistAppend l k v) k2 = alistLookup l k2 := by
  induction l with
  | nil => simp [alistAppend, alistLookup]
  | cons kv rest ih =>
    by_cases hk : kv.1 = k
    · simp [alistAppend, alistLookup, hk, h]
    · simp [alistAppend, alistLookup, hk, ih]

/-! ## Similarity and divergence of the back-edge loop -/

/-- An item always has similarity 1 with itself once its content serializes
to at least one token. -/
theorem calculateSimilarity_self (d : Item)
    (h : pyTokens (dumps (itemGet d "content" (Json.str ""))) ≠ ∅) :
    calculateSimilarity d d = 1 := by
  unfold calculateSimilarity jaccard
  rw [Finset.inter_self, Finset.union_self]
  have hc : 0 < (pyTokens (dumps (itemGet d "content" (Json.str "")))).card :=
    Finset.card_pos.2 (Finset.nonempty_iff_ne_empty.2 h)
  rw [if_pos hc]
  exact div_self (by exact_mod_cast hc.ne')

/-- In a one-item graph holding the new item itself, the similarity search
returns exactly that item. -/
theorem findRelatedKnowledge_single (kid : String) (d : Item)
    (h : pyTokens (dumps (itemGet d "content" (Json.str ""))) ≠ ∅) :
    findRelatedKnowledge [(kid, d)] d = [kid] := by
  unfold findRelatedKnowledge
  have hs := calculateSimilarity_self d h
  have hcond : decide ((7 : ℚ)/10 < calculateSimilarity d d) = true := by
    rw [hs]; norm_num
  simp [List.filter, hcond]

/-- Key divergence fact: if the live list at `connections[knowledge_id]`
has, from some index on, only occurrences of `knowledge_id` itself, the loop
appends one occurrence per step and never catches up, whatever the fuel. -/
theorem backEdgeLoop_eq_none (kid : String) :
    ∀ (fuel : Nat) (conns : List (String × List String)) (i : Nat) (l : List String),
      alistLookup conns kid = some l →
      (∃ j, i ≤ j ∧ j < l.length ∧
        ∀ j2, j ≤ j2 → j2 < l.length → l.getD j2 "" = kid) →
      backEdgeLoop kid fuel conns i = none := by
  intro fuel
  induction fuel with
  | zero => intro conns i l _ _; rfl
  | succ n ih =>
    intro conns i l hlook hinv
    obtain ⟨j, hij, hjl, hall⟩ := hinv
    have hi : i < l.length := lt_of_le_of_lt hij hjl
    rw [backEdgeLoop]
    simp only [hlook, Option.getD_some]
    rw [if_pos hi]
    by_cases hr : l.getD i "" = kid
    · rw [hr]
      have hsome : (alistLookup conns kid).isSome := by rw [hlook]; rfl
      rw [if_pos hsome]
      have hlook2 := alistLookup_append_self conns kid kid l hlook
      refine ih _ (i + 1) (l ++ [kid]) hlook2 ⟨max j (i + 1), le_max_right _ _, ?_, ?_⟩
      · simp only [List.length_append, List.length_cons, List.length_nil]
        omega
      · intro j2 hj2 h2
        simp only [List.length_append, List.length_cons, List.length_nil] at h2
        by_cases hcase : j2 < l.length
        · rw [List.getD_eq_getElem _ _ (by simpa using h2), List.getElem_append_left hcase,
            ← List.getD_eq_getElem _ _ hcase]
          exact hall j2 (le_trans (le_max_left _ _) hj2) hcase
        · have hj2e : j2 = l.length := by omega
          subst hj2e
          have hlt : l.length < (l ++ [kid]).length := by simp
          rw [List.getD_eq_getElem _ _ hlt]
          simp
    · have hij2 : i + 1 ≤ j := by
        rcases Nat.lt_or_ge i j with h | h
        · omega
        · exact absurd (hall i h hi) hr
      by_cases hsome : (alistLookup conns (l.getD i "")).isSome
      · rw [if_pos hsome]
        have hlook2 : alistLookup (alistAppend conns (l.getD i "") kid) kid = some l := by
          rw [alistLookup_append_ne _ _ _ _ hr]; exact hlook
        exact ih _ (i + 1) l hlook2 ⟨j, hij2, hjl, hall⟩
      · rw [if_neg hsome]
        exact ih _ (i + 1) l hlook ⟨j, hij2, hjl, hall⟩

/-- Whenever the similarity search returns exactly the new item itself (as
it always does on the first insertion into a fresh pathway, since the item
is placed in the graph before the search and matches itself),
`add_knowledge` never terminates. -/
theorem addKnowledge_eq_none (log1p : ℚ → ℚ) (now : ℚ) (fuel : Nat) (kid : String)
    (d : Item) (p : Pathway)
    (h : findRelatedKnowledge (alistSet p.knowledge_graph kid d) d = [kid]) :
    addKnowledge log1p now fuel kid d p = none := by
  have hloop := backEdgeLoop_eq_none kid fuel (alistSet p.connections kid [kid]) 0 [kid]
    (alistLookup_set_self _ _ _)
    ⟨0, le_refl 0, by simp, by
      intro j2 _ h2
      simp only [List.length_cons, List.length_nil] at h2
      have : j2 = 0 := by omega
      subst this
      rfl⟩
  unfold addKnowledge
  simp only [h, hloop]

/-! ## Validator evaluation lemmas -/

theorem validateContentSize_nonneg (content : Json) : 0 ≤ validateContentSize content := by
  unfold validateContentSize
  dsimp only
  split
  · exact le_refl 0
  · rename_i hle
    push_neg at hle
    have hdiv : ((dumps content).length : ℚ) / ((1024 * 1024 : ℕ) : ℚ) ≤ 1 := by
      rw [div_le_one (by norm_num)]
      exact_mod_cast hle
    linarith

theorem validateContentSize_le_one (content : Json) : validateContentSize content ≤ 1 := by
  unfold validateContentSize
  dsimp only
  split
  · norm_num
  · have h0 : (0 : ℚ) ≤ ((dumps content).length : ℚ) := by positivity
    have : 0 ≤ ((dumps content).length : ℚ) / ((1024 * 1024 : ℕ) : ℚ) := by positivity
    linarith

/-- When the content is an `algorithm`-typed record that passes the
algorithm check, the content stage averages 1 with the size score. -/
theorem validateContent_algorithm (d : Item) (c : Json)
    (hc : itemGet d "content" (Json.obj []) = c)
    (ht : pyGet c "type" Json.null = .ok (Json.str "algorithm"))
    (ha : validateAlgorithm c = 1) :
    validateContent d = (1 + validateContentSize c) / 2 := by
  unfold validateContent validateContentCore
  dsimp only
  rw [hc, ht]
  simp [Except.bind, ha]

/-- A cache miss followed by four passing stages validates and caches. -/
theorem validateKnowledge_true (threshold : ℚ) (pyHash : String → ℤ) (now : ℚ)
    (cache : Cache) (d : Item)
    (hmiss : alistLookup cache (generateCacheKey pyHash d) = none)
    (hs : validateStructure d = true)
    (hc : ¬ validateContent d < threshold)
    (hd2 : validateDependencies d = true)
    (hv : validateVersion d = true) :
    validateKnowledge threshold pyHash now cache d
      = (true, alistSet cache (generateCacheKey pyHash d) (now, true)) := by
  unfold validateKnowledge validateKnowledgeCore validateKnowledgeStages
  dsimp only
  rw [hmiss]
  simp [hs, hc, hd2, hv]

/-- A rejected submission leaves the validation cache untouched. -/
theorem validateKnowledge_false_cache (threshold : ℚ) (pyHash : String → ℤ) (now : ℚ)
    (cache : Cache) (d : Item)
    (hfalse : (validateKnowledge threshold pyHash now cache d).1 = false) :
    (validateKnowledge threshold pyHash now cache d).2 = cache := by
  unfold validateKnowledge validateKnowledgeCore validateKnowledgeStages at hfalse ⊢
  dsimp only at hfalse ⊢
  cases hlook : alistLookup cache (generateCacheKey pyHash d) with
  | none =>
    rw [hlook] at hfalse
    dsimp only at hfalse ⊢
    split_ifs at hfalse ⊢ <;> simp_all
  | some tv =>
    obtain ⟨t, r⟩ := tv
    rw [hlook] at hfalse
    dsimp only at hfalse ⊢
    rcases lt_or_ge (now - t) 3600 with hage | hage
    · rw [if_pos hage] at hfalse ⊢
      try rfl
    · rw [if_neg (not_lt.2 hage)] at hfalse ⊢
      split_ifs at hfalse ⊢ <;> simp_all

/-! ## Submission divergence -/

/-- Any submission that passes validation, whose ledger call succeeds and
whose domain has no pathway yet, never returns: the very first
`add_knowledge` call loops forever. -/
theorem submitKnowledge_eq_none_fresh
    (ledger : Item → String → Except PyErr String) (sha256hex sha256raw : String → String)
    (pyHash : String → ℤ) (threshold now : ℚ) (log1p : ℚ → ℚ) (fuel : Nat) (d : Item)
    (st : ExchangeState) (tx : String)
    (hval : validateKnowledge threshold pyHash now st.cache d
      = (true, alistSet st.cache (generateCacheKey pyHash d) (now, true)))
    (hledger : ledger d (createSignature sha256raw d) = .ok tx)
    (hfresh : alistLookup st.pathways (itemGet d "domain" Json.null) = none)
    (htok : pyTokens (dumps (itemGet d "content" (Json.str ""))) ≠ ∅) :
    submitKnowledge ledger sha256hex sha256raw pyHash threshold now log1p fuel d st
      = none := by
  unfold submitKnowledge
  dsimp only
  rw [hval]
  simp only [Bool.not_true, Bool.false_eq_true, if_false, hledger, hfresh, Option.getD_none]
  have hrel : findRelatedKnowledge
      (alistSet (emptyPathway (itemGet d "domain" Json.null)).knowledge_graph
        (generateKnowledgeId sha256hex d) d) d = [generateKnowledgeId sha256hex d] := by
    show findRelatedKnowledge (alistSet [] (generateKnowledgeId sha256hex d) d) d = _
    rw [show alistSet ([] : List (String × Item)) (generateKnowledgeId sha256hex d) d
      = [(generateKnowledgeId sha256hex d, d)] from rfl]
    exact findRelatedKnowledge_single _ d htok
  rw [addKnowledge_eq_none _ _ _ _ _ _ hrel]
  simp

/-- Validation of the three concrete valid items used below. -/
theorem validateKnowledge_c1Item (pyHash : String → ℤ) (now : ℚ) :
    validateKnowledge (1/2) pyHash now [] c1Item
      = (true, alistSet [] (generateCacheKey pyHash c1Item) (now, true)) := by
  apply validateKnowledge_true
  · rfl
  · decide
  · rw [validateContent_algorithm c1Item (Json.obj [("type", Json.str "algorithm"),
      ("algorithm", Json.obj [("name", Json.str "a1"), ("parameters", Json.obj []),
        ("complexity", Json.str "o")])]) rfl rfl rfl]
    have h0 := validateContentSize_nonneg (Json.obj [("type", Json.str "algorithm"),
      ("algorithm", Json.obj [("name", Json.str "a1"), ("parameters", Json.obj []),
        ("complexity", Json.str "o")])])
    intro hlt
    linarith
  · decide
  · decide

theorem validateKnowledge_c7Item (pyHash : String → ℤ) (now : ℚ) :
    validateKnowledge (1/2) pyHash now [] c7Item
      = (true, alistSet [] (generateCacheKey pyHash c7Item) (now, true)) := by
  apply validateKnowledge_true
  · rfl
  · decide
  · rw [validateContent_algorithm c7Item (Json.obj [("type", Json.str "algorithm"),
      ("algorithm", Json.obj [("name", Json.str "b1"), ("parameters", Json.obj []),
        ("complexity", Json.str "o")])]) rfl rfl rfl]
    have h0 := validateContentSize_nonneg (Json.obj [("type", Json.str "algorithm"),
      ("algorithm", Json.obj [("name", Json.str "b1"), ("parameters", Json.obj []),
        ("complexity", Json.str "o")])])
    intro hlt
    linarith
  · decide
  · decide

theorem validateKnowledge_c10Item (pyHash : String → ℤ) (now : ℚ) :
    validateKnowledge (1/2) pyHash now [] c10Item
      = (true, alistSet [] (generateCacheKey pyHash c10Item) (now, true)) := by
  apply validateKnowledge_true
  · rfl
  · decide
  · rw [validateContent_algorithm c10Item (Json.obj [("type", Json.str "algorithm"),
      ("algorithm", Json.obj [("name", Json.str "c1"), ("parameters", Json.obj []),
        ("complexity", Json.str "o")])]) rfl rfl rfl]
    have h0 := validateContentSize_nonneg (Json.obj [("type", Json.str "algorithm"),
      ("algorithm", Json.obj [("name", Json.str "c1"), ("parameters", Json.obj []),
        ("complexity", Json.str "o")])])
    intro hlt
    linarith
  · decide
  · decide

/-! ## Query-side filtering -/

/-- Every result of `LearningPathway.query_knowledge` is a stored item with
the `performance_score` key set. -/
theorem pathwayQueryKnowledge_mem (p : Pathway) (queryParams : Item) (x : Item)
    (hx : x ∈ pathwayQueryKnowledge p queryParams) :
    ∃ e ∈ p.knowledge_graph, x = alistSet e.2 "performance_score"
      (Json.num ((alistLookup p.performance_metrics e.1).getD 0)) := by
  unfold pathwayQueryKnowledge at hx
  rw [List.mem_insertionSort] at hx
  obtain ⟨e, he, rfl⟩ := List.mem_map.1 hx
  exact ⟨e, (List.mem_filter.1 he).1, rfl⟩

/-! ## Claim theorems -/

/-- C1: query_knowledge drops every stored item that has no `signature`
key (submit_knowledge never writes one, and `_verify_knowledge` rejects
items lacking it), so a domain whose graph holds only such items queries to
the empty list; however, no item can ever be accepted through
submit_knowledge in the first place, because its `add_knowledge` call never
terminates: the new item is placed in the graph before the similarity
search, matches itself with similarity 1, and the back-edge loop appends to
the very list it iterates. -/
theorem C1_unsigned_items_filtered_and_submit_diverges :
    (∀ (verify : Json → Except PyErr Bool) (domain : Json) (queryParams : Item)
       (st : ExchangeState) (p : Pathway),
       alistLookup st.pathways domain = some p →
       (∀ kid it, (kid, it) ∈ p.knowledge_graph → alistLookup it "signature" = none) →
       exchangeQueryKnowledge verify domain queryParams st = .ok []) ∧
    (∀ (sha256hex sha256raw : String → String) (pyHash : String → ℤ) (log1p : ℚ → ℚ)
       (tx : String) (fuel : Nat),
       submitKnowledge (fun _ _ => .ok tx) sha256hex sha256raw pyHash (1/2) 0 log1p fuel
         c1Item initialExchangeState = none) := by
  constructor
  · intro verify domain queryParams st p hdom hsig
    unfold exchangeQueryKnowledge
    rw [hdom]
    have hfilter : ∀ x ∈ pathwayQueryKnowledge p queryParams,
        ¬ verifyKnowledge verify x = true := by
      intro x hx
      obtain ⟨e, he, rfl⟩ := pathwayQueryKnowledge_mem p queryParams x hx
      unfold verifyKnowledge
      rw [alistLookup_set_ne _ _ _ _ (by decide), hsig e.1 e.2 he]
      simp
    dsimp only
    rw [List.filter_eq_nil_iff.2 hfilter]
  · intro sha256hex sha256raw pyHash log1p tx fuel
    exact submitKnowledge_eq_none_fresh _ _ _ _ _ _ _ _ _ _ tx
      (validateKnowledge_c1Item pyHash 0) rfl rfl (by decide)

/-- Witness for C1: a concrete state holding one signature-free item
queries to the empty list. -/
theorem C1_witness :
    exchangeQueryKnowledge (fun _ => .ok true) (Json.str "ml") [] c1QueryState = .ok [] :=
  C1_unsigned_items_filtered_and_submit_diverges.1 (fun _ => .ok true) (Json.str "ml") []
    c1QueryState c1Pathway rfl (by
      intro kid it hmem
      simp only [c1Pathway, List.mem_singleton, Prod.mk.injEq] at hmem
      obtain ⟨rfl, rfl⟩ := hmem
      decide)

/-- C3: the two concrete items share more than 70 percent of their content
tokens (Jaccard 9/11), but the claimed post-state is never reached: already
the FIRST insertion of the scenario loops forever inside `add_knowledge`,
because the new item is inserted into the graph before the similarity
search, matches itself with similarity 1, and the back-edge loop appends
the new id to the very list it is iterating. -/
theorem C3_similar_pair_first_add_diverges :
    7/10 < calculateSimilarity c3ItemB c3ItemA ∧
    ∀ (log1p : ℚ → ℚ) (now : ℚ) (fuel : Nat),
      addKnowledge log1p now fuel "k1" c3ItemA (emptyPathway (Json.str "ml")) = none := by
  constructor
  · have hi : (pyTokens (dumps (itemGet c3ItemB "content" (Json.str ""))) ∩
        pyTokens (dumps (itemGet c3ItemA "content" (Json.str "")))).card = 9 := by decide
    have hu : (pyTokens (dumps (itemGet c3ItemB "content" (Json.str ""))) ∪
        pyTokens (dumps (itemGet c3ItemA "content" (Json.str "")))).card = 11 := by decide
    unfold calculateSimilarity jaccard
    rw [hi, hu]
    norm_num
  · intro log1p now fuel
    apply addKnowledge_eq_none
    show findRelatedKnowledge (alistSet [] "k1" c3ItemA) c3ItemA = ["k1"]
    rw [show alistSet ([] : List (String × Item)) "k1" c3ItemA = [("k1", c3ItemA)] from rfl]
    exact findRelatedKnowledge_single "k1" c3ItemA (by decide)

/-- C7: a submission the validator rejects makes `submit_knowledge` raise
(`ValueError`, the spec's ValidationError) with the ledger never consulted
and the state unchanged; but an accepted submission does not return the
ledger's transaction id — it never returns at all, because `add_knowledge`
loops forever. -/
theorem C7_rejected_raises_accepted_never_returns :
    (∀ (ledger : Item → String → Except PyErr String) (sha256hex sha256raw : String → String)
       (pyHash : String → ℤ) (threshold now : ℚ) (log1p : ℚ → ℚ) (fuel : Nat) (d : Item)
       (st : ExchangeState),
       (validateKnowledge threshold pyHash now st.cache d).1 = false →
       submitKnowledge ledger sha256hex sha256raw pyHash threshold now log1p fuel d st
         = some (.error .valueError, st)) ∧
    (∀ (sha256hex sha256raw : String → String) (pyHash : String → ℤ) (log1p : ℚ → ℚ)
       (tx : String) (fuel : Nat),
       submitKnowledge (fun _ _ => .ok tx) sha256hex sha256raw pyHash (1/2) 0 log1p fuel
         c7Item initialExchangeState = none) := by
  constructor
  · intro ledger sha256hex sha256raw pyHash threshold now log1p fuel d st hval
    unfold submitKnowledge
    dsimp only
    rw [hval, validateKnowledge_false_cache _ _ _ _ _ hval]
    simp
  · intro sha256hex sha256raw pyHash log1p tx fuel
    exact submitKnowledge_eq_none_fresh _ _ _ _ _ _ _ _ _ _ tx
      (validateKnowledge_c7Item pyHash 0) rfl rfl (by decide)

/-- Witness for C7: a concrete structurally invalid submission (the empty
record) is rejected with the state unchanged, for an arbitrary ledger. -/
theorem C7_witness :
    (validateKnowledge (1/2) (fun _ => 0) 0 initialExchangeState.cache []).1 = false ∧
    submitKnowledge (fun _ _ => .ok "tx") (fun s => s) (fun s => s) (fun _ => 0) (1/2) 0
      (fun q => q) 5 [] initialExchangeState
      = some (.error .valueError, initialExchangeState) := by
  refine ⟨by decide, ?_⟩
  exact C7_rejected_raises_accepted_never_returns.1 _ _ _ _ _ _ _ _ [] initialExchangeState
    (by decide)

/-- C10: submitting the same valid item twice cannot even increment the
contributor score once: the first submission never completes, because
`add_knowledge` diverges before the contributor-score update (which sits
after the back-edge loop in the source). -/
theorem C10_first_duplicate_submission_never_completes :
    ∀ (sha256hex sha256raw : String → String) (pyHash : String → ℤ) (log1p : ℚ → ℚ)
      (tx : String) (fuel : Nat),
      submitKnowledge (fun _ _ => .ok tx) sha256hex sha256raw pyHash (1/2) 0 log1p fuel
        c10Item initialExchangeState = none := by
  intro sha256hex sha256raw pyHash log1p tx fuel
  exact submitKnowledge_eq_none_fresh _ _ _ _ _ _ _ _ _ _ tx
    (validateKnowledge_c10Item pyHash 0) rfl rfl (by decide)

/-! ## C5: pruning -/

theorem alistLookup_map_snd {κ α β : Type} [DecidableEq κ] (g : α → β)
    (l : List (κ × α)) (k : κ) :
    alistLookup (l.map (fun e => (e.1, g e.2))) k = (alistLookup l k).map g := by
  induction l with
  | nil => rfl
  | cons kv rest ih =>
    by_cases h : kv.1 = k <;> simp [alistLookup, h, ih]

/-- C5: immediately after `_prune_connections` on a state with at least one
performance score, every retained outbound edge u → v has
`performance_metrics.get(v, 0)` at least the mean of all scores, and every
edge whose target scores below the mean is gone. -/
theorem C5_pruned_edges_meet_mean (p : Pathway) (h : p.performance_metrics ≠ [])
    (u v : String) :
    (v ∈ (alistLookup (pruneConnections p).connections u).getD [] →
      (p.performance_metrics.map Prod.snd).sum
          / ((p.performance_metrics.map Prod.snd).length : ℚ)
        ≤ (alistLookup p.performance_metrics v).getD 0) ∧
    ((alistLookup p.performance_metrics v).getD 0
        < (p.performance_metrics.map Prod.snd).sum
          / ((p.performance_metrics.map Prod.snd).length : ℚ) →
      v ∉ (alistLookup (pruneConnections p).connections u).getD []) := by
  have hne : (p.performance_metrics.map Prod.snd).isEmpty = false := by
    cases hm : p.performance_metrics with
    | nil => exact absurd hm h
    | cons a t => simp [hm]
  unfold pruneConnections
  dsimp only
  simp only [hne, Bool.false_eq_true, if_false]
  rw [alistLookup_map_snd]
  constructor
  · intro hv
    cases hlook : alistLookup p.connections u with
    | none => rw [hlook] at hv; simp at hv
    | some xs =>
      rw [hlook] at hv
      simp [List.mem_filter] at hv
      simpa using hv.2
  · intro hlt hv
    cases hlook : alistLookup p.connections u with
    | none => rw [hlook] at hv; simp at hv
    | some xs =>
      rw [hlook] at hv
      simp [List.mem_filter] at hv
      exact absurd hv.2 (not_le.2 (by simpa using hlt))

/-- Witness for C5 at a concrete two-score pathway. -/
theorem C5_witness :
    c5Pathway.performance_metrics ≠ [] ∧
    (("b" ∈ (alistLookup (pruneConnections c5Pathway).connections "a").getD [] →
        (c5Pathway.performance_metrics.map Prod.snd).sum
            / ((c5Pathway.performance_metrics.map Prod.snd).length : ℚ)
          ≤ (alistLookup c5Pathway.performance_metrics "b").getD 0) ∧
      ((alistLookup c5Pathway.performance_metrics "b").getD 0
          < (c5Pathway.performance_metrics.map Prod.snd).sum
            / ((c5Pathway.performance_metrics.map Prod.snd).length : ℚ) →
        "b" ∉ (alistLookup (pruneConnections c5Pathway).connections "a").getD [])) :=
  ⟨by decide, C5_pruned_edges_meet_mean c5Pathway (by decide) "a" "b"⟩

/-! ## C6: unknown content type -/

/-- A cache miss, a passing structure stage and a content score below the
threshold make validation fail without touching the cache. -/
theorem validateKnowledge_false_of_content (threshold : ℚ) (pyHash : String → ℤ)
    (now : ℚ) (cache : Cache) (d : Item)
    (hmiss : alistLookup cache (generateCacheKey pyHash d) = none)
    (hs : validateStructure d = true) (hc : validateContent d < threshold) :
    validateKnowledge threshold pyHash now cache d = (false, cache) := by
  unfold validateKnowledge validateKnowledgeCore validateKnowledgeStages
  dsimp only
  rw [hmiss]
  simp [hs, hc]

/-- C6: for a structurally valid item whose content-type discriminator is
none of the three known kinds, the content score is half the size score,
validation fails whenever the threshold exceeds the size score, and at the
default threshold 0.85 it always fails (the average is at most 1/2). -/
theorem C6_unknown_type_fails (threshold : ℚ) (pyHash : String → ℤ) (now : ℚ)
    (cache : Cache) (d : Item) (cf : List (String × Json))
    (hmiss : alistLookup cache (generateCacheKey pyHash d) = none)
    (hstruct : validateStructure d = true)
    (hcf : itemGet d "content" (Json.obj []) = Json.obj cf)
    (htype : ∀ s : String, s ∈ ["model_weights", "training_data", "algorithm"] →
      (alistLookup cf "type").getD Json.null ≠ Json.str s) :
    validateContent d = validateContentSize (Json.obj cf) / 2 ∧
    (validateContentSize (Json.obj cf) < threshold →
      (validateKnowledge threshold pyHash now cache d).1 = false) ∧
    (validateKnowledge (85/100) pyHash now cache d).1 = false := by
  have hcontent : validateContent d = validateContentSize (Json.obj cf) / 2 := by
    unfold validateContent validateContentCore
    dsimp only
    rw [hcf]
    have hty : pyGet (Json.obj cf) "type" Json.null
        = .ok ((alistLookup cf "type").getD Json.null) := rfl
    rw [hty]
    try dsimp only [Bind.bind, Except.bind]
    rw [if_neg (htype "model_weights" (by simp)), if_neg (htype "training_data" (by simp)),
      if_neg (htype "algorithm" (by simp))]
    try dsimp only [Pure.pure, Except.pure]
    try ring_nf
    try ring
    try simp
    try linarith
  have hsize0 := validateContentSize_nonneg (Json.obj cf)
  have hsize1 := validateContentSize_le_one (Json.obj cf)
  refine ⟨hcontent, ?_, ?_⟩
  · intro hlt
    have hc : validateContent d < threshold := by rw [hcontent]; linarith
    rw [validateKnowledge_false_of_content threshold pyHash now cache d hmiss hstruct hc]
  · have hc : validateContent d < 85/100 := by rw [hcontent]; linarith
    rw [validateKnowledge_false_of_content (85/100) pyHash now cache d hmiss hstruct hc]

/-- Witness for C6: the concrete `unknown_type` item fails at threshold
0.85 with an empty cache. -/
theorem C6_witness :
    validateStructure c6Item = true ∧
    (validateKnowledge (85/100) (fun _ => 0) 0 [] c6Item).1 = false := by
  refine ⟨by decide, ?_⟩
  exact (C6_unknown_type_fails 1 (fun _ => 0) 0 [] c6Item
    [("type", Json.str "unknown_type"), ("payload", Json.str "p")]
    rfl (by decide) rfl (by decide)).2.2

/-! ## C8: validation never raises -/

/-- C8: the body of `validate_knowledge` always yields a boolean (the
stage wrappers reduce internal failures to stage results), so the outer
handler is never reached and `validate` never raises; moreover each stage
that fails internally yields its failure value (false, 0.0, false). -/
theorem C8_validate_never_raises (threshold : ℚ) (pyHash : String → ℤ) (now : ℚ)
    (cache : Cache) (d : Item) :
    (∃ r, validateKnowledgeCore threshold pyHash now cache d = .ok r ∧
      validateKnowledge threshold pyHash now cache d = r) ∧
    (∀ e, validateStructureCore d = .error e → validateStructure d = false) ∧
    (∀ e, validateContentCore d = .error e → validateContent d = 0) ∧
    (∀ e, validateDependenciesCore d = .error e → validateDependencies d = false) := by
  have hcore : ∃ r, validateKnowledgeCore threshold pyHash now cache d = .ok r := by
    unfold validateKnowledgeCore validateKnowledgeStages
    dsimp only
    cases alistLookup cache (generateCacheKey pyHash d) with
    | none => split_ifs <;> exact ⟨_, rfl⟩
    | some tv =>
      obtain ⟨t, r⟩ := tv
      dsimp only
      split_ifs <;> exact ⟨_, rfl⟩
  obtain ⟨r, hr⟩ := hcore
  refine ⟨⟨r, hr, ?_⟩, ?_, ?_, ?_⟩
  · unfold validateKnowledge
    rw [hr]
  · intro e he
    unfold validateStructure
    rw [he]
  · intro e he
    unfold validateContent
    rw [he]
  · intro e he
    unfold validateDependencies
    rw [he]

/-- Witness for C8: concrete items whose stages fail internally (a numeric
timestamp raising `TypeError` past the inner `except ValueError`; numeric
content and dependencies raising on attribute access and iteration), all
reduced to stage-failure values. -/
theorem C8_witness :
    validateStructureCore c8ItemA = .error .typeError ∧
    validateStructure c8ItemA = false ∧
    validateContentCore c8ItemB = .error .attributeError ∧
    validateContent c8ItemB = 0 ∧
    validateDependenciesCore c8ItemB = .error .typeError ∧
    validateDependencies c8ItemB = false :=
  ⟨rfl,
   (C8_validate_never_raises 1 (fun _ => 0) 0 [] c8ItemA).2.1 .typeError rfl,
   rfl,
   (C8_validate_never_raises 1 (fun _ => 0) 0 [] c8ItemB).2.2.1 .attributeError rfl,
   rfl,
   (C8_validate_never_raises 1 (fun _ => 0) 0 [] c8ItemB).2.2.2 .typeError rfl⟩

/-! ## C9: canonical serialization is order-independent -/

theorem alistLookup_eq_none_iff {κ α : Type} [DecidableEq κ] (l : List (κ × α)) (k : κ) :
    alistLookup l k = none ↔ k ∉ l.map Prod.fst := by
  induction l with
  | nil => simp [alistLookup]
  | cons kv rest ih =>
    by_cases h : kv.1 = k
    · subst h
      simp [alistLookup]
    · simp [alistLookup, h, ih, Ne.symm h]

/-- Two association lists with the same key multiset and the same lookups
sort to the same canonical entry list. -/
theorem sortEntries_eq_of (F G : List (String × Json))
    (hkeys : (F.map Prod.fst).Perm (G.map Prod.fst))
    (hlook : ∀ k, alistLookup F k = alistLookup G k) :
    sortEntries F = sortEntries G := by
  unfold sortEntries
  haveI : IsAntisymm String (fun a b : String => a ≤ b) := ⟨fun _ _ h1 h2 => le_antisymm h1 h2⟩
  haveI : IsTotal String (fun a b : String => a ≤ b) := ⟨fun a b => le_total a b⟩
  haveI : IsTrans String (fun a b : String => a ≤ b) := ⟨fun _ _ _ h1 h2 => le_trans h1 h2⟩
  have hkeyseq : List.insertionSort (fun a b => a ≤ b) (F.map Prod.fst)
      = List.insertionSort (fun a b => a ≤ b) (G.map Prod.fst) := by
    have hperm : (List.insertionSort (fun a b : String => a ≤ b) (F.map Prod.fst)).Perm
        (List.insertionSort (fun a b : String => a ≤ b) (G.map Prod.fst)) :=
      (List.perm_insertionSort _ _).trans (hkeys.trans (List.perm_insertionSort _ _).symm)
    exact List.eq_of_perm_of_sorted hperm
      (List.sorted_insertionSort _ _) (List.sorted_insertionSort _ _)
  rw [hkeyseq]
  have hfun : (fun k => (k, (alistLookup F k).getD Json.null))
      = fun k => (k, (alistLookup G k).getD Json.null) :=
    funext fun k => by rw [hlook k]
  rw [hfun]

theorem sortKeysFields_eq_map (l : List (String × Json)) :
    sortKeysFields l = l.map (fun kv => (kv.1, sortKeysJson kv.2)) := by
  induction l with
  | nil => rfl
  | cons kv rest ih =>
    obtain ⟨k, v⟩ := kv
    simp [sortKeysFields, ih]

mutual

/-- Values equal up to object-field reordering at any nesting level (with
unique keys, as in every Python dict) canonicalize identically under the
recursive key sort of `json.dumps(..., sort_keys=True)`. -/
theorem jsonEquiv_sortKeysJson : ∀ j1 j2, jsonWF j1 = true → jsonEquiv j1 j2 = true →
    sortKeysJson j1 = sortKeysJson j2
| .null, j2, _, h => by cases j2 <;> simp_all [jsonEquiv]
| .bool a, j2, _, h => by cases j2 <;> simp_all [jsonEquiv]
| .num a, j2, _, h => by cases j2 <;> simp_all [jsonEquiv]
| .str a, j2, _, h => by cases j2 <;> simp_all [jsonEquiv]
| .arr xs, .null, _, h => by simp [jsonEquiv] at h
| .arr xs, .bool b, _, h => by simp [jsonEquiv] at h
| .arr xs, .num q, _, h => by simp [jsonEquiv] at h
| .arr xs, .str s2, _, h => by simp [jsonEquiv] at h
| .arr xs, .arr ys, hwf, h => by
    have hxs : jsonWFList xs = true := by simpa [jsonWF] using hwf
    have hl : jsonEquivList xs ys = true := by simpa [jsonEquiv] using h
    show Json.arr (sortKeysList xs) = Json.arr (sortKeysList ys)
    rw [jsonEquivList_sortKeysList xs ys hxs hl]
| .arr xs, .obj gs, _, h => by simp [jsonEquiv] at h
| .obj fs, .null, _, h => by simp [jsonEquiv] at h
| .obj fs, .bool b, _, h => by simp [jsonEquiv] at h
| .obj fs, .num q, _, h => by simp [jsonEquiv] at h
| .obj fs, .str s2, _, h => by simp [jsonEquiv] at h
| .obj fs, .arr ys, _, h => by simp [jsonEquiv] at h
| .obj fs, .obj gs, hwf, h => by
    simp only [jsonWF, Bool.and_eq_true, decide_eq_true_eq] at hwf
    obtain ⟨hnodup, hwff⟩ := hwf
    simp only [jsonEquiv, Bool.and_eq_true, beq_iff_eq] at h
    obtain ⟨hlen, heqf⟩ := h
    have hsub : fs.map Prod.fst ⊆ gs.map Prod.fst := by
      intro k hk
      obtain ⟨kv, hkv, rfl⟩ := List.mem_map.1 hk
      cases hfk : alistLookup fs kv.1 with
      | none =>
        exact absurd (List.mem_map.2 ⟨kv, hkv, rfl⟩)
          ((alistLookup_eq_none_iff fs kv.1).1 hfk)
      | some v =>
        obtain ⟨w, hgw, _⟩ := jsonEquivFields_lookup fs gs hwff heqf kv.1 v hfk
        by_contra hmem
        rw [(alistLookup_eq_none_iff gs kv.1).2 hmem] at hgw
        cases hgw
    have hperm : (fs.map Prod.fst).Perm (gs.map Prod.fst) := by
      apply (List.subperm_of_subset hnodup hsub).perm_of_length_le
      simp [hlen]
    have hlook : ∀ k, alistLookup (sortKeysFields fs) k = alistLookup (sortKeysFields gs) k := by
      intro k
      rw [sortKeysFields_eq_map, sortKeysFields_eq_map, alistLookup_map_snd, alistLookup_map_snd]
      cases hfk : alistLookup fs k with
      | none =>
        have hnotf : k ∉ fs.map Prod.fst := (alistLookup_eq_none_iff fs k).1 hfk
        have hnotg : k ∉ gs.map Prod.fst := fun hmem => hnotf (hperm.mem_iff.2 hmem)
        rw [(alistLookup_eq_none_iff gs k).2 hnotg]
      | some v =>
        obtain ⟨w, hgw, hvw⟩ := jsonEquivFields_lookup fs gs hwff heqf k v hfk
        rw [hgw]
        simp [hvw]
    have hentries : sortEntries (sortKeysFields fs) = sortEntries (sortKeysFields gs) :=
      sortEntries_eq_of _ _
        (by rw [sortKeysFields_eq_map, sortKeysFields_eq_map]
            simpa [List.map_map, Function.comp] using hperm)
        hlook
    show Json.obj (sortEntries (sortKeysFields fs)) = Json.obj (sortEntries (sortKeysFields gs))
    rw [hentries]

theorem jsonEquivList_sortKeysList : ∀ xs ys, jsonWFList xs = true →
    jsonEquivList xs ys = true → sortKeysList xs = sortKeysList ys
| [], [], _, _ => rfl
| [], y :: ys, _, h => by simp [jsonEquivList] at h
| x :: xs, [], _, h => by simp [jsonEquivList] at h
| x :: xs, y :: ys, hwf, h => by
    simp only [jsonWFList, Bool.and_eq_true] at hwf
    simp only [jsonEquivList, Bool.and_eq_true] at h
    show sortKeysJson x :: sortKeysList xs = sortKeysJson y :: sortKeysList ys
    rw [jsonEquiv_sortKeysJson x y hwf.1 h.1, jsonEquivList_sortKeysList xs ys hwf.2 h.2]

/-- Looking up any key of the first record in an equivalent second record
finds a value with the same canonical form. -/
theorem jsonEquivFields_lookup : ∀ (fs gs : List (String × Json)), jsonWFFields fs = true →
    jsonEquivFields fs gs = true → ∀ k v, alistLookup fs k = some v →
    ∃ w, alistLookup gs k = some w ∧ sortKeysJson v = sortKeysJson w
| [], _, _, _, k, v, hkv => by simp [alistLookup] at hkv
| (k1, v1) :: rest, gs, hwf, heq, k, v, hkv => by
    simp only [jsonWFFields, Bool.and_eq_true] at hwf
    simp only [jsonEquivFields, Bool.and_eq_true] at heq
    obtain ⟨hhead, hrest⟩ := heq
    by_cases hk : k1 = k
    · subst hk
      have hv : v1 = v := by simpa [alistLookup] using hkv
      subst hv
      cases hgw : alistLookup gs k1 with
      | none => rw [hgw] at hhead; simp at hhead
      | some w1 =>
        rw [hgw] at hhead
        exact ⟨w1, rfl, jsonEquiv_sortKeysJson v1 w1 hwf.1 (by simpa using hhead)⟩
    · have hkv2 : alistLookup rest k = some v := by simpa [alistLookup, hk] using hkv
      exact jsonEquivFields_lookup rest gs hwf.2 hrest k v hkv2

end

/-- C9: the derived knowledge identifier is a deterministic digest of the
canonical content: two submissions whose structured content is equal up to
reordering of fields in its representation — at the top level or inside any
nested object, keys being unique as in every Python dict — have the same
key-sorted canonical serialization, so any digest of it coincides. -/
theorem C9_id_invariant_under_field_order (sha256hex : String → String)
    (f1 f2 : List (String × Json)) (hwf : jsonWF (Json.obj f1) = true)
    (heq : jsonEquiv (Json.obj f1) (Json.obj f2) = true) :
    generateKnowledgeId sha256hex f1 = generateKnowledgeId sha256hex f2 := by
  unfold generateKnowledgeId dumpsSorted
  rw [jsonEquiv_sortKeysJson (Json.obj f1) (Json.obj f2) hwf heq]

/-- Witness for C9: reordering both the top-level fields and the keys of
the nested content payload leaves the identifier unchanged, for a concrete
digest stand-in. -/
theorem C9_witness :
    generateKnowledgeId (fun s => s)
      [("content", Json.obj [("b", Json.num 2), ("a", Json.num 1)]), ("domain", Json.str "d")]
      = generateKnowledgeId (fun s => s)
      [("domain", Json.str "d"), ("content", Json.obj [("a", Json.num 1), ("b", Json.num 2)])] :=
  C9_id_invariant_under_field_order (fun s => s) _ _ (by decide) (by decide)

/-! ## C2: top contributors -/

/-- Two distinct members of a list occur in one of the two orders. -/
theorem pair_sublist_of_mem {α : Type} {l : List α} {p q : α} (hp : p ∈ l) (hq : q ∈ l)
    (hne : p ≠ q) : [p, q].Sublist l ∨ [q, p].Sublist l := by
  induction l with
  | nil => cases hp
  | cons a t ih =>
    by_cases hpa : p = a
    · subst hpa
      have hqt : q ∈ t := by
        rcases List.mem_cons.1 hq with h | h
        · exact absurd h.symm hne
        · exact h
      exact Or.inl ((List.singleton_sublist.2 hqt).cons₂ p)
    · by_cases hqa : q = a
      · subst hqa
        have hpt : p ∈ t := by
          rcases List.mem_cons.1 hp with h | h
          · exact absurd h hpa
          · exact h
        exact Or.inr ((List.singleton_sublist.2 hpt).cons₂ q)
      · have hpt : p ∈ t := by
          rcases List.mem_cons.1 hp with h | h
          · exact absurd h hpa
          · exact h
        have hqt : q ∈ t := by
          rcases List.mem_cons.1 hq with h | h
          · exact absurd h hqa
          · exact h
        exact (ih hpt hqt).imp (List.Sublist.cons a) (List.Sublist.cons a)

/-- In a duplicate-free list a pair cannot occur in both orders. -/
theorem not_pair_sublist_both {α : Type} {l : List α} {p q : α} (hnd : l.Nodup)
    (hne : p ≠ q) (h1 : [p, q].Sublist l) (h2 : [q, p].Sublist l) : False := by
  induction l with
  | nil => simp at h1
  | cons a t ih =>
    rw [List.nodup_cons] at hnd
    cases h1 with
    | cons _ h1t =>
      cases h2 with
      | cons _ h2t => exact ih hnd.2 h1t h2t
      | cons₂ _ h2t =>
        exact hnd.1 (h1t.subset (by simp))
    | cons₂ _ h1t =>
      cases h2 with
      | cons _ h2t => exact hnd.1 (h2t.subset (by simp))
      | cons₂ _ h2t => exact hne rfl

/-- C2 counterexample: with two equal scores inserted in the order
`"b"` before `"a"`, the stable sort keeps `"b"` first even though the
contributor id `"a"` precedes `"b"`, so ties are NOT broken by contributor
id. -/
theorem C2_counterexample_insertion_order_ties :
    getTopContributors [(Json.str "b", 1), (Json.str "a", 1)]
      = [(Json.str "b", 1), (Json.str "a", 1)] ∧ ("a" : String) < "b" := by
  constructor
  · decide
  · rw [String.lt_iff_toList_lt]
    decide

/-- C2 (amended): `get_top_contributors` returns at most 10 entries sorted
by score descending, and entries with equal scores keep the score map's
insertion order (Python's sort is stable), rather than being reordered by
contributor id. -/
theorem C2_top_contributors_sorted_stable (scores : List (Json × ℚ))
    (hnd : scores.Nodup) :
    (getTopContributors scores).length ≤ 10 ∧
    (getTopContributors scores).Pairwise (fun a b => b.2 ≤ a.2) ∧
    (∀ p q, [p, q].Sublist (getTopContributors scores) → p.2 = q.2 →
      [p, q].Sublist scores) := by
  refine ⟨List.length_take_le _ _, ?_, ?_⟩
  · exact (List.sorted_insertionSort _ scores).sublist (List.take_sublist _ _)
  · intro p q hsub heq
    have hsorted : [p, q].Sublist (List.insertionSort (fun a b => b.2 ≤ a.2) scores) :=
      hsub.trans (List.take_sublist _ _)
    have hndsort : (List.insertionSort (fun a b => b.2 ≤ a.2) scores).Nodup :=
      ((List.perm_insertionSort _ scores).nodup_iff).2 hnd
    have hpq : p ≠ q := by
      intro hh
      subst hh
      have hdup : ([p, p] : List (Json × ℚ)).Nodup := List.Nodup.sublist hsorted hndsort
      simp at hdup
    have hp : p ∈ scores := (List.mem_insertionSort _).1 (hsorted.subset (by simp))
    have hq : q ∈ scores := (List.mem_insertionSort _).1 (hsorted.subset (by simp))
    rcases pair_sublist_of_mem hp hq hpq with h | h
    · exact h
    · exfalso
      have hqp : [q, p].Sublist (List.insertionSort (fun a b => b.2 ≤ a.2) scores) :=
        List.pair_sublist_insertionSort (by simp [heq]) h
      exact not_pair_sublist_both hndsort hpq hsorted hqp

/-- Witness for C2 at a concrete score map. -/
theorem C2_witness :
    ([(Json.str "b", (1 : ℚ)), (Json.str "a", 1)] : List (Json × ℚ)).Nodup ∧
    ((getTopContributors [(Json.str "b", 1), (Json.str "a", 1)]).length ≤ 10 ∧
     (getTopContributors [(Json.str "b", 1), (Json.str "a", 1)]).Pairwise
        (fun a b => b.2 ≤ a.2) ∧
     (∀ p q, [p, q].Sublist (getTopContributors [(Json.str "b", 1), (Json.str "a", 1)]) →
        p.2 = q.2 → [p, q].Sublist [(Json.str "b", 1), (Json.str "a", 1)])) :=
  ⟨by decide, C2_top_contributors_sorted_stable [(Json.str "b", 1), (Json.str "a", 1)]
    (by decide)⟩

end PW
